import Mathlib

/-!
Verification of the minta Qt GUI shell (src/minta): a shallow embedding of
`GuiMain` (bitcoin.h), `GuiController` / `NodeWorker` (controller.h) and
`BitcoinGUI` (bitcoingui.cpp / bitcoingui.h).

The program is event-driven glue: a controller constructs a window and a
worker, wires Qt signal/slot connections between them, starts the worker
thread, and triggers two-phase node initialization.  We embed it as a
small-step system with three FIFO event queues (the worker thread's event
queue, the GUI thread's event queue, and the external `InitExecutor`'s
pending tasks), handler functions transcribed from the source, and an
action trace recording every observable step in chronological order.
Cross-thread Qt `connect`s (auto connections between objects on different
threads) enqueue the slot invocation on the receiver's queue; same-thread
connections to the same object (`baseInitSuccess → initNode`,
`baseInitFail → onBaseInitFail`, `initFail → onInitFail`) run the slot
synchronously inside the emitting handler, exactly as Qt direct delivery.
A schedule chooses, step by step, which queue is serviced or which user
interaction (button click, window-close request) happens, so the theorems
quantify over every interleaving of the three threads and the user.

Out-of-scope repository code (`common::InitConfig`, `gArgs.ParseParameters`,
`interfaces::Node::baseInitialize`, `interfaces::Node::listRpcCommands`,
`InitExecutor`) is parameterised by an environment `Env` and, where it has
behaviour of its own, modelled from the spec (see `InitExecutor.step`).
`QApplication::exit` is modelled as recording an exit request in the
trace; `exec` returns the first request recorded while the event loop
runs.  An exit request made before `exec()` starts — such as the one in
the `GuiController` constructor, which runs at bitcoin.h line 48, before
`exec()` at line 49 — is a documented Qt no-op (and `exec()` clears any
pending quit state on entry), so `GuiMain` consults only the trace suffix
recorded after construction; and `GuiMain` — as in the source — discards
`exec()`'s value and returns `EXIT_SUCCESS`.
-/

namespace Minta


/-- `interfaces::BlockAndHeaderTipInfo` as used by this fragment: only
`header_height` is read (logged by `NodeWorker::initializeResult`). -/
structure BlockAndHeaderTipInfo where
  header_height : Int
  deriving DecidableEq, Repr

/-- Modelled from the spec: outcomes of the external node/init interfaces
(`common::InitConfig`, `gArgs.ParseParameters`, `baseInitialize()`, the
asynchronous `initialize()` result, `listRpcCommands()`) and of code that
may throw during controller construction.  These are code of the repository
outside src/, so only their result values enter the model. -/
structure Env where
  /-- `gArgs.ParseParameters` succeeds. -/
  parseParamsOk : Bool
  /-- `common::InitConfig(gArgs)`: `none` on success, `some msg` on failure. -/
  configError : Option String
  /-- an exception escaping `GuiController` construction, if any. -/
  ctorException : Option String
  /-- `m_node->baseInitialize()`. -/
  baseInitOk : Bool
  /-- the success flag delivered by `InitExecutor::initializeResult`. -/
  fullInitOk : Bool
  /-- the tip info delivered by `InitExecutor::initializeResult`. -/
  tipInfo : BlockAndHeaderTipInfo
  /-- `m_node->listRpcCommands()`. -/
  rpcCommands : List String
  deriving DecidableEq, Repr

/-- The Qt signals of the program (`Q_SIGNALS` of `GuiController`,
`BitcoinGUI`, `NodeWorker`, plus the two `InitExecutor` result signals). -/
inductive Sig
  | initNode          -- GuiController::initNode
  | quitRequested     -- BitcoinGUI::quitRequested
  | listCommands      -- BitcoinGUI::listCommands
  | commands          -- NodeWorker::commands
  | baseInitSuccess   -- NodeWorker::baseInitSuccess
  | baseInitFail      -- NodeWorker::baseInitFail
  | initSuccess       -- NodeWorker::initSuccess
  | initFail          -- NodeWorker::initFail
  | shutdown          -- NodeWorker::shutdown
  | shutdownResult    -- NodeWorker::shutdownResult
  | execInitializeResult  -- InitExecutor::initializeResult
  | execShutdownResult    -- InitExecutor::shutdownResult
  deriving DecidableEq, Repr

/-- The slots (and slot-like signal targets) appearing as `connect` targets. -/
inductive Slot
  | workerListCommands
  | guiRcvCommands
  | workerOnShutdown
  | guiDoClose
  | workerBaseInitNode
  | guiShow
  | executorShutdown
  | workerInitNode
  | workerOnBaseInitFail
  | workerOnInitFail
  | workerInitializeResult
  | workerShutdownResultSig
  deriving DecidableEq, Repr

/-- The `connect` calls of the program in source order:
`GuiController::GuiController` (controller.h lines 148-156) followed by
`NodeWorker::NodeWorker` (controller.h lines 181-187).  Note the connection
of `InitExecutor::initializeResult` to `NodeWorker::initializeResult`
appears twice (lines 185 and 186). -/
def connections : List (Sig × Slot) :=
  [ (Sig.listCommands, Slot.workerListCommands),
    (Sig.commands, Slot.guiRcvCommands),
    (Sig.quitRequested, Slot.workerOnShutdown),
    (Sig.shutdownResult, Slot.guiDoClose),
    (Sig.initNode, Slot.workerBaseInitNode),
    (Sig.initSuccess, Slot.guiShow),
    (Sig.shutdown, Slot.executorShutdown),
    (Sig.baseInitSuccess, Slot.workerInitNode),
    (Sig.baseInitFail, Slot.workerOnBaseInitFail),
    (Sig.initFail, Slot.workerOnInitFail),
    (Sig.execInitializeResult, Slot.workerInitializeResult),
    (Sig.execInitializeResult, Slot.workerInitializeResult),
    (Sig.execShutdownResult, Slot.workerShutdownResultSig) ]

/-- Slots invoked when a signal is emitted, in connection order. -/
def slotsOf (sg : Sig) : List Slot :=
  (connections.filter (fun c => c.1 = sg)).map (fun c => c.2)

/-- Slot invocations queued on the worker thread's event queue. -/
inductive WorkerEv
  | baseInitNode    -- from GuiController::initNode
  | listCommands    -- from BitcoinGUI::listCommands
  | onShutdown      -- from BitcoinGUI::quitRequested
  | initializeResult (success : Bool) (tip : BlockAndHeaderTipInfo)
                    -- from InitExecutor::initializeResult
  | shutdownResultFwd  -- InitExecutor::shutdownResult forwarded to the
                       -- NodeWorker::shutdownResult signal
  deriving DecidableEq, Repr

/-- Slot invocations queued on the GUI thread's event queue. -/
inductive GuiEv
  | rcvCommands (cmds : List String)  -- from NodeWorker::commands
  | doClose                           -- from NodeWorker::shutdownResult
  | showWin                           -- QMainWindow::show, from initSuccess
  deriving DecidableEq, Repr

/-- Tasks pending on the external `InitExecutor` (its own thread). -/
inductive ExecTask
  | initReq   -- initialize() requested by NodeWorker::initNode
  | shutdown     -- requested via the NodeWorker::shutdown signal
  deriving DecidableEq, Repr

/-- Observable actions, recorded in chronological order. -/
inductive Action
  | logConfigError (msg : String)   -- qCritical "Fail to open bitcoin.conf"
  | logParseError (msg : String)    -- qCritical "fail to parse args"
  | logException (msg : String)     -- qCritical in GuiMain's catch blocks
  | exitCall (code : Nat)           -- QApplication/QCoreApplication::exit
  | initLogging                     -- InitLogging(gArgs)
  | initParamInteraction            -- InitParameterInteraction(gArgs)
  | constructWindow                 -- new BitcoinGUI(this)
  | constructWorker                 -- new NodeWorker(this)
  | startThread                     -- m_node_thread->start()
  | emit (s : Sig)                  -- a Q_EMIT of the given signal
  | callBaseInit (result : Bool)   -- m_node->baseInitialize()
  | callExecutorInit          -- m_executor->initialize()
  | callExecutorShutdown            -- the executor performing shutdown
  | callListRpcCommands (res : List String)  -- m_node->listRpcCommands()
  | logCommand (cmd : String)       -- qDebug() << cmd in rcvCommands
  | logHeaderHeight (h : Int)       -- qDebug in initializeResult
  | showWindow                      -- QMainWindow::show executed
  | closeAccepted                   -- ev->accept() in closeEvent
  | closeIgnored                    -- ev->ignore() in closeEvent
  | processDoClose                  -- BitcoinGUI::doClose executed
  deriving DecidableEq, Repr

/-- The state of the running program: the three event queues, the window
state (`m_allow_close`, whether `show()` has run), and the action trace. -/
structure Sys where
  workerQ : List WorkerEv
  guiQ : List GuiEv
  execQ : List ExecTask
  allow_close : Bool
  windowShown : Bool
  trace : List Action
  deriving DecidableEq, Repr

/-- `BitcoinGUI::rcvCommands` (bitcoingui.cpp lines 72-77): logs each
received command string, one `qDebug` entry per string, in order. -/
def BitcoinGUI.rcvCommands (s : Sys) (cmds : List String) : Sys :=
  { s with trace := s.trace ++ cmds.map Action.logCommand }

/-- `BitcoinGUI::doClose` (bitcoingui.cpp): sets `m_allow_close = true` and
calls `QApplication::exit(0)`. -/
def BitcoinGUI.doClose (s : Sys) : Sys :=
  { s with allow_close := true,
           trace := s.trace ++ [Action.processDoClose, Action.exitCall 0] }

/-- `BitcoinGUI::closeEvent` (bitcoingui.cpp lines 58-70): emits
`quitRequested` (queued to `NodeWorker::onShutdown`), then accepts the
close event iff `m_allow_close`, else ignores it. -/
def BitcoinGUI.closeEvent (s : Sys) : Sys :=
  let s1 : Sys :=
    { s with workerQ := s.workerQ ++ [WorkerEv.onShutdown],
             trace := s.trace ++ [Action.emit Sig.quitRequested] }
  if s1.allow_close then
    { s1 with trace := s1.trace ++ [Action.closeAccepted] }
  else
    { s1 with trace := s1.trace ++ [Action.closeIgnored] }

/-- A click on the window's button: emits `BitcoinGUI::listCommands`,
queued to `NodeWorker::listCommands` (controller.h line 148). -/
def BitcoinGUI.buttonClick (s : Sys) : Sys :=
  { s with trace := s.trace ++ [Action.emit Sig.listCommands],
           workerQ := s.workerQ ++ [WorkerEv.listCommands] }

/-- `QMainWindow::show`, connected to `NodeWorker::initSuccess`
(controller.h line 156). -/
def BitcoinGUI.showWin (s : Sys) : Sys :=
  { s with windowShown := true, trace := s.trace ++ [Action.showWindow] }

/-- `NodeWorker::onBaseInitFail` (controller.h lines 214-217):
`QCoreApplication::exit(1)`. -/
def NodeWorker.onBaseInitFail (s : Sys) : Sys :=
  { s with trace := s.trace ++ [Action.exitCall 1] }

/-- `NodeWorker::onInitFail` (controller.h lines 219-223):
`QCoreApplication::exit(1)`. -/
def NodeWorker.onInitFail (s : Sys) : Sys :=
  { s with trace := s.trace ++ [Action.exitCall 1] }

/-- `NodeWorker::initNode` (controller.h lines 200-203):
`m_executor->initialize()` — the asynchronous full-initialization request. -/
def NodeWorker.initNode (s : Sys) : Sys :=
  { s with trace := s.trace ++ [Action.callExecutorInit],
           execQ := s.execQ ++ [ExecTask.initReq] }

/-- `NodeWorker::baseInitNode` (controller.h lines 190-198): calls
`m_node->baseInitialize()`; on true emits `baseInitSuccess` (direct
connection to `NodeWorker::initNode`), on false emits `baseInitFail`
(direct connection to `NodeWorker::onBaseInitFail`). -/
def NodeWorker.baseInitNode (env : Env) (s : Sys) : Sys :=
  let r := env.baseInitOk
  let s1 : Sys := { s with trace := s.trace ++ [Action.callBaseInit r] }
  if r then
    NodeWorker.initNode
      { s1 with trace := s1.trace ++ [Action.emit Sig.baseInitSuccess] }
  else
    NodeWorker.onBaseInitFail
      { s1 with trace := s1.trace ++ [Action.emit Sig.baseInitFail] }

/-- `NodeWorker::initializeResult` (controller.h lines 205-212): logs the
header height, then on success emits `initSuccess` (queued to
`QMainWindow::show`), on failure emits `initFail` (direct connection to
`NodeWorker::onInitFail`). -/
def NodeWorker.initializeResult (s : Sys) (success : Bool)
    (tip : BlockAndHeaderTipInfo) : Sys :=
  let s1 : Sys :=
    { s with trace := s.trace ++ [Action.logHeaderHeight tip.header_height] }
  if success then
    { s1 with trace := s1.trace ++ [Action.emit Sig.initSuccess],
              guiQ := s1.guiQ ++ [GuiEv.showWin] }
  else
    NodeWorker.onInitFail
      { s1 with trace := s1.trace ++ [Action.emit Sig.initFail] }

/-- `NodeWorker::onShutdown` (controller.h lines 225-227): emits `shutdown`,
connected to `InitExecutor::shutdown` on the executor's thread. -/
def NodeWorker.onShutdown (s : Sys) : Sys :=
  { s with trace := s.trace ++ [Action.emit Sig.shutdown],
           execQ := s.execQ ++ [ExecTask.shutdown] }

/-- `NodeWorker::listCommands` (controller.h lines 236-241): queries
`m_node->listRpcCommands()` and emits `commands` with the result, queued
to `BitcoinGUI::rcvCommands`. -/
def NodeWorker.listCommands (env : Env) (s : Sys) : Sys :=
  let res := env.rpcCommands
  { s with trace := s.trace ++ [Action.callListRpcCommands res,
                                Action.emit Sig.commands],
           guiQ := s.guiQ ++ [GuiEv.rcvCommands res] }

/-- Re-emission of the `NodeWorker::shutdownResult` signal (forwarded from
`InitExecutor::shutdownResult`, controller.h line 187), connected to
`BitcoinGUI::doClose` (controller.h line 152). -/
def NodeWorker.shutdownResultFwd (s : Sys) : Sys :=
  { s with trace := s.trace ++ [Action.emit Sig.shutdownResult],
           guiQ := s.guiQ ++ [GuiEv.doClose] }

/-- Modelled from the spec: `InitExecutor` (minta/initexecutor.h, not under
src/) runs on its own thread; `initialize()` yields one asynchronous
`initializeResult(success, tipInfo)` emission and `shutdown()` yields one
asynchronous `shutdownResult` emission ("`shutdown()`, with an asynchronous
completion signal").  Because `initializeResult` is connected twice to
`NodeWorker::initializeResult` (controller.h lines 185-186), its emission
enqueues that slot twice on the worker thread. -/
def InitExecutor.step (env : Env) (s : Sys) (t : ExecTask) : Sys :=
  match t with
  | ExecTask.initReq =>
      { s with trace := s.trace ++ [Action.emit Sig.execInitializeResult],
               workerQ := s.workerQ ++
                 [WorkerEv.initializeResult env.fullInitOk env.tipInfo,
                  WorkerEv.initializeResult env.fullInitOk env.tipInfo] }
  | ExecTask.shutdown =>
      { s with trace := s.trace ++ [Action.callExecutorShutdown,
                                    Action.emit Sig.execShutdownResult],
               workerQ := s.workerQ ++ [WorkerEv.shutdownResultFwd] }

/-- One scheduling choice: service the head of one of the three queues, or
inject a user interaction (button click / window-close request) on the GUI
thread. -/
inductive SchedStep
  | worker
  | gui
  | execu
  | click
  | close
  deriving DecidableEq, Repr

/-- One small step of the system under a scheduling choice.  Servicing an
empty queue is a no-op. -/
def step (env : Env) (s : Sys) : SchedStep → Sys
  | SchedStep.worker =>
      match s.workerQ with
      | [] => s
      | e :: rest =>
        let s1 : Sys := { s with workerQ := rest }
        match e with
        | WorkerEv.baseInitNode => NodeWorker.baseInitNode env s1
        | WorkerEv.listCommands => NodeWorker.listCommands env s1
        | WorkerEv.onShutdown => NodeWorker.onShutdown s1
        | WorkerEv.initializeResult b tip => NodeWorker.initializeResult s1 b tip
        | WorkerEv.shutdownResultFwd => NodeWorker.shutdownResultFwd s1
  | SchedStep.gui =>
      match s.guiQ with
      | [] => s
      | e :: rest =>
        let s1 : Sys := { s with guiQ := rest }
        match e with
        | GuiEv.rcvCommands cmds => BitcoinGUI.rcvCommands s1 cmds
        | GuiEv.doClose => BitcoinGUI.doClose s1
        | GuiEv.showWin => BitcoinGUI.showWin s1
  | SchedStep.execu =>
      match s.execQ with
      | [] => s
      | t :: rest => InitExecutor.step env { s with execQ := rest } t
  | SchedStep.click => BitcoinGUI.buttonClick s
  | SchedStep.close => BitcoinGUI.closeEvent s

/-- Running the system under a schedule. -/
def run (env : Env) (s : Sys) : List SchedStep → Sys
  | [] => s
  | st :: sched => run env (step env s st) sched

/-- The empty initial system. -/
def initialSys : Sys :=
  { workerQ := [], guiQ := [], execQ := [], allow_close := false,
    windowShown := false, trace := [] }

/-- `GuiController::GuiController` (controller.h lines 125-164): checks
`common::InitConfig` (on failure logs `qCritical` and calls
`QApplication::exit(1)`, without returning early), then unconditionally
initializes logging and parameter interaction, constructs the window and
the worker, wires the connections, starts the worker thread, and emits
`initNode` (queued to `NodeWorker::baseInitNode`). -/
def GuiController.construct (env : Env) (s : Sys) : Sys :=
  let s1 : Sys :=
    match env.configError with
    | some msg =>
        { s with trace := s.trace ++ [Action.logConfigError msg,
                                      Action.exitCall 1] }
    | none => s
  { s1 with trace := s1.trace ++
              [Action.initLogging, Action.initParamInteraction,
               Action.constructWindow, Action.constructWorker,
               Action.startThread, Action.emit Sig.initNode],
            workerQ := s1.workerQ ++ [WorkerEv.baseInitNode] }

/-- Exit codes requested of the application, in the order requested. -/
def exitRequests (t : List Action) : List Nat :=
  t.filterMap (fun a => match a with
    | Action.exitCall c => some c
    | _ => none)

/-- `QApplication::exec()` modelled on the trace produced while the event
loop runs: it returns the first exit code requested via
`QApplication::exit` / `QCoreApplication::exit` during that time, and does
not return while no exit has been requested.  `GuiMain` passes the trace
suffix recorded after construction, because Qt ignores exit requests made
before the loop starts (`QCoreApplication::exit` is documented to do
nothing when the event loop is not running, and `exec()` clears pending
quit state on entry). -/
def execReturn (t : List Action) : Option Nat :=
  (exitRequests t).head?

/-- `GuiMain` (bitcoin.h lines 27-58): parses parameters (on failure logs
and returns `EXIT_FAILURE` = 1); then constructs the controller and runs
`QApplication::exec()` inside a try/catch — an escaping exception is logged
and mapped to `EXIT_FAILURE`; otherwise, once the event loop exits,
`GuiMain` discards `exec()`'s return value and returns `EXIT_SUCCESS` = 0.
Construction (line 48) completes before `exec()` (line 49) starts, so
`exec()` honours only exit requests made during the scheduled steps — the
trace suffix after construction — an exit request made inside the
constructor being a Qt no-op.  Returns the produced log/trace and
`some code` when `GuiMain` returns, `none` while the event loop never
exits. -/
def GuiMain (env : Env) (sched : List SchedStep) : List Action × Option Nat :=
  if env.parseParamsOk = false then
    ([Action.logParseError "parse error"], some 1)
  else
    match env.ctorException with
    | some msg => ([Action.logException msg], some 1)
    | none =>
        let s0 := GuiController.construct env initialSys
        let s := run env s0 sched
        (s.trace, (execReturn (s.trace.drop s0.trace.length)).map (fun _ => 0))

/-- In trace `t`, action `b` never occurs before action `a`. -/
def PrecIn (a b : Action) (t : List Action) : Prop :=
  ∀ p, p <+: t → b ∈ p → a ∈ p

/-- The worker-queue events that are `baseInitNode` invocations. -/
def isBaseInitNodeEv : WorkerEv → Bool
  | WorkerEv.baseInitNode => true
  | _ => false

/-- The trace actions that are calls of `m_node->baseInitialize()`. -/
def isCallBase : Action → Bool
  | Action.callBaseInit _ => true
  | _ => false

/-- The trace actions that are calls of `m_executor->initialize()`. -/
def isCallExecInit : Action → Bool
  | Action.callExecutorInit => true
  | _ => false

/-- Invariant of every reachable state of the system, for a fixed
environment: the window-close flag tracks `doClose`, queued events record
their provenance, full initialization is gated on `baseInitialize`, the
initialization entry points are never re-invoked, and the key temporal
orderings hold of the trace. -/
structure Inv (env : Env) (s : Sys) : Prop where
  allowClose_iff : s.allow_close = true ↔ Action.processDoClose ∈ s.trace
  doCloseQ : GuiEv.doClose ∈ s.guiQ → Action.emit Sig.shutdownResult ∈ s.trace
  showQ : GuiEv.showWin ∈ s.guiQ → Action.emit Sig.initSuccess ∈ s.trace
  initResQ : ∀ b tip, WorkerEv.initializeResult b tip ∈ s.workerQ →
      b = env.fullInitOk ∧ tip = env.tipInfo
  initSuccessOk : Action.emit Sig.initSuccess ∈ s.trace → env.fullInitOk = true
  shown : s.windowShown = true → Action.emit Sig.initSuccess ∈ s.trace
  noExecInit : env.baseInitOk = false → Action.callExecutorInit ∉ s.trace
  baseCount : s.workerQ.countP isBaseInitNodeEv + s.trace.countP isCallBase ≤ 1
  execLeBase : s.trace.countP isCallExecInit ≤ s.trace.countP isCallBase
  precDoCloseAccept : PrecIn Action.processDoClose Action.closeAccepted s.trace
  precAckDoClose : PrecIn (Action.emit Sig.shutdownResult) Action.processDoClose s.trace
  precInitSuccessShow : PrecIn (Action.emit Sig.initSuccess) Action.showWindow s.trace
  precBaseExec : PrecIn (Action.callBaseInit true) Action.callExecutorInit s.trace

/-- The command strings logged by `BitcoinGUI::rcvCommands`, in log order. -/
def loggedCommands (t : List Action) : List String :=
  t.filterMap (fun a => match a with
    | Action.logCommand c => some c
    | _ => none)

/-- A concrete tip-info value for concrete runs. -/
def tipC : BlockAndHeaderTipInfo := ⟨0⟩

/-- An environment where every external operation succeeds. -/
def envOk (tip : BlockAndHeaderTipInfo) (cmds : List String) : Env :=
  ⟨true, none, none, true, true, tip, cmds⟩

/-- Everything succeeds except parsing the configuration file. -/
def envConfFail : Env := ⟨true, some "bad conf", none, true, true, tipC, []⟩

/-- Everything succeeds except `baseInitialize()`, which returns false. -/
def envBaseFail : Env := ⟨true, none, none, false, true, tipC, []⟩

/-- `baseInitialize()` succeeds but the full-initialization result reports failure. -/
def envFullFail : Env := ⟨true, none, none, true, false, tipC, []⟩

/-- Command-line parameter parsing fails. -/
def envParseFail : Env := ⟨false, none, none, true, true, tipC, []⟩

/-- An exception escapes `GuiController` construction. -/
def envThrow : Env := ⟨true, none, some "boom", true, true, tipC, []⟩

/-- The schedule of the canonical successful run: base init, executor
init, two `initializeResult` deliveries, two window shows, a first close
request (ignored), the shutdown handshake, and a second close request
(accepted). -/
def normalSched : List SchedStep :=
  [SchedStep.worker, SchedStep.execu, SchedStep.worker, SchedStep.worker,
   SchedStep.gui, SchedStep.gui, SchedStep.close, SchedStep.worker,
   SchedStep.execu, SchedStep.worker, SchedStep.gui, SchedStep.close]

/-- A schedule that carries a successful run up to the first window show. -/
def showSched : List SchedStep :=
  [SchedStep.worker, SchedStep.execu, SchedStep.worker, SchedStep.gui]

/-- A schedule for a successful startup followed by one button click and
the delivery of the resulting command list to the window. -/
def clickSched : List SchedStep :=
  [SchedStep.worker, SchedStep.execu, SchedStep.worker, SchedStep.worker,
   SchedStep.gui, SchedStep.gui, SchedStep.click, SchedStep.worker, SchedStep.gui]

/-- A schedule delivering a full-initialization result twice (as the
duplicated connection does) to the worker. -/
def failFullSched : List SchedStep :=
  [SchedStep.worker, SchedStep.execu, SchedStep.worker, SchedStep.worker]

/-! ## Helper lemmas -/

theorem front_of_append {α : Type} {p t u : List α} (h : p <+: t ++ u) :
    p <+: t ∨ ∃ q, q <+: u ∧ p = t ++ q := by
  induction t generalizing p with
  | nil => exact Or.inr ⟨p, by simpa using h, rfl⟩
  | cons x t ih =>
      cases p with
      | nil => exact Or.inl (List.nil_prefix)
      | cons y p =>
          rw [List.cons_append, List.cons_prefix_cons] at h
          obtain ⟨rfl, h⟩ := h
          rcases ih h with h1 | ⟨q, hq, rfl⟩
          · exact Or.inl (List.cons_prefix_cons.mpr ⟨rfl, h1⟩)
          · exact Or.inr ⟨q, hq, rfl⟩

theorem precIn_append {a b : Action} {t u : List Action}
    (h : PrecIn a b t) (hu : ∀ q, q <+: u → b ∈ q → a ∈ t ++ q) :
    PrecIn a b (t ++ u) := by
  intro p hp hb
  rcases front_of_append hp with h1 | ⟨q, hq, rfl⟩
  · exact h p h1 hb
  · rcases List.mem_append.mp hb with h2 | h2
    · exact List.mem_append_left _ (h t List.prefix_rfl h2)
    · exact hu q hq h2

theorem precIn_of_not_mem {a b : Action} {t : List Action} (hb : b ∉ t) :
    PrecIn a b t :=
  fun _ hp hbp => absurd (hp.subset hbp) hb

theorem precIn_append_not_mem {a b : Action} {t u : List Action}
    (h : PrecIn a b t) (hb : b ∉ u) : PrecIn a b (t ++ u) :=
  precIn_append h (fun _ hq hbq => absurd (hq.subset hbq) hb)

theorem precIn_append_mem_left {a b : Action} {t u : List Action}
    (h : PrecIn a b t) (ha : a ∈ t) : PrecIn a b (t ++ u) :=
  precIn_append h (fun q _ _ => List.mem_append_left q ha)

theorem precIn_append_head {a b : Action} {t rest : List Action}
    (h : PrecIn a b t) : PrecIn a b (t ++ (a :: rest)) := by
  refine precIn_append h ?_
  intro q hq hbq
  cases q with
  | nil => cases hbq
  | cons x _ =>
      obtain ⟨rfl, -⟩ := List.cons_prefix_cons.mp hq
      exact List.mem_append_right _ (List.mem_cons_self _ _)

theorem loggedCommands_append (t u : List Action) :
    loggedCommands (t ++ u) = loggedCommands t ++ loggedCommands u := by
  simp [loggedCommands, List.filterMap_append]

theorem loggedCommands_map (cmds : List String) :
    loggedCommands (cmds.map Action.logCommand) = cmds := by
  induction cmds with
  | nil => rfl
  | cons c cs ih => simpa [loggedCommands] using ih

theorem exitRequests_append (t u : List Action) :
    exitRequests (t ++ u) = exitRequests t ++ exitRequests u := by
  simp [exitRequests, List.filterMap_append]

theorem execReturn_of_exit_mem {t : List Action} {c : Nat}
    (h : Action.exitCall c ∈ t) : ∃ d, execReturn t = some d := by
  cases he : exitRequests t with
  | nil =>
      exfalso
      have := List.filterMap_eq_nil_iff.mp he _ h
      simp at this
  | cons d rest => exact ⟨d, by simp [execReturn, he]⟩

theorem run_append (env : Env) (s : Sys) (l1 l2 : List SchedStep) :
    run env s (l1 ++ l2) = run env (run env s l1) l2 := by
  induction l1 generalizing s with
  | nil => simp [run]
  | cons st l1 ih => simp [run, ih]

theorem step_trace_mono (env : Env) (s : Sys) (st : SchedStep) :
    ∃ u, (step env s st).trace = s.trace ++ u := by
  cases st with
  | worker =>
      cases hq : s.workerQ with
      | nil => exact ⟨[], by simp [step, hq]⟩
      | cons e rest =>
          cases e with
          | baseInitNode =>
              cases hB : env.baseInitOk with
              | true =>
                  exact ⟨[Action.callBaseInit true, Action.emit Sig.baseInitSuccess,
                      Action.callExecutorInit],
                    by simp [step, hq, NodeWorker.baseInitNode, NodeWorker.initNode, hB]⟩
              | false =>
                  exact ⟨[Action.callBaseInit false, Action.emit Sig.baseInitFail,
                      Action.exitCall 1],
                    by simp [step, hq, NodeWorker.baseInitNode, NodeWorker.onBaseInitFail, hB]⟩
          | listCommands =>
              exact ⟨[Action.callListRpcCommands env.rpcCommands, Action.emit Sig.commands],
                by simp [step, hq, NodeWorker.listCommands]⟩
          | onShutdown =>
              exact ⟨[Action.emit Sig.shutdown], by simp [step, hq, NodeWorker.onShutdown]⟩
          | initializeResult b tip =>
              cases hB : b with
              | true =>
                  exact ⟨[Action.logHeaderHeight tip.header_height, Action.emit Sig.initSuccess],
                    by simp [step, hq, NodeWorker.initializeResult, hB]⟩
              | false =>
                  exact ⟨[Action.logHeaderHeight tip.header_height, Action.emit Sig.initFail,
                      Action.exitCall 1],
                    by simp [step, hq, NodeWorker.initializeResult, NodeWorker.onInitFail, hB]⟩
          | shutdownResultFwd =>
              exact ⟨[Action.emit Sig.shutdownResult],
                by simp [step, hq, NodeWorker.shutdownResultFwd]⟩
  | gui =>
      cases hq : s.guiQ with
      | nil => exact ⟨[], by simp [step, hq]⟩
      | cons e rest =>
          cases e with
          | rcvCommands cmds =>
              exact ⟨cmds.map Action.logCommand, by simp [step, hq, BitcoinGUI.rcvCommands]⟩
          | doClose =>
              exact ⟨[Action.processDoClose, Action.exitCall 0],
                by simp [step, hq, BitcoinGUI.doClose]⟩
          | showWin =>
              exact ⟨[Action.showWindow], by simp [step, hq, BitcoinGUI.showWin]⟩
  | execu =>
      cases hq : s.execQ with
      | nil => exact ⟨[], by simp [step, hq]⟩
      | cons t rest =>
          cases t with
          | initReq =>
              exact ⟨[Action.emit Sig.execInitializeResult],
                by simp [step, hq, InitExecutor.step]⟩
          | shutdown =>
              exact ⟨[Action.callExecutorShutdown, Action.emit Sig.execShutdownResult],
                by simp [step, hq, InitExecutor.step]⟩
  | click =>
      exact ⟨[Action.emit Sig.listCommands], by simp [step, BitcoinGUI.buttonClick]⟩
  | close =>
      cases hB : s.allow_close with
      | true =>
          exact ⟨[Action.emit Sig.quitRequested, Action.closeAccepted],
            by simp [step, BitcoinGUI.closeEvent, hB]⟩
      | false =>
          exact ⟨[Action.emit Sig.quitRequested, Action.closeIgnored],
            by simp [step, BitcoinGUI.closeEvent, hB]⟩

theorem run_trace_mono (env : Env) (sched : List SchedStep) (s : Sys) :
    ∃ u, (run env s sched).trace = s.trace ++ u := by
  induction sched generalizing s with
  | nil => exact ⟨[], by simp [run]⟩
  | cons st sched ih =>
      obtain ⟨u1, hu1⟩ := step_trace_mono env s st
      obtain ⟨u2, hu2⟩ := ih (step env s st)
      exact ⟨u1 ++ u2, by rw [run, hu2, hu1, List.append_assoc]⟩

theorem inv_construct (env : Env) :
    Inv env (GuiController.construct env initialSys) := by
  cases hc : env.configError with
  | none =>
      simp only [GuiController.construct, hc, initialSys, List.nil_append]
      refine ⟨?_, ?_, ?_, ?_, ?_, ?_, ?_, ?_, ?_, ?_, ?_, ?_, ?_⟩
      · simp
      · intro hm; simp at hm
      · intro hm; simp at hm
      · intro b tip hm; simp at hm
      · intro hm; simp at hm
      · intro hw; simp at hw
      · intro _ hm; simp at hm
      · simp [isBaseInitNodeEv, isCallBase]
      · simp [isCallBase, isCallExecInit]
      · exact precIn_of_not_mem (by simp)
      · exact precIn_of_not_mem (by simp)
      · exact precIn_of_not_mem (by simp)
      · exact precIn_of_not_mem (by simp)
  | some msg =>
      simp only [GuiController.construct, hc, initialSys, List.nil_append]
      refine ⟨?_, ?_, ?_, ?_, ?_, ?_, ?_, ?_, ?_, ?_, ?_, ?_, ?_⟩
      · simp
      · intro hm; simp at hm
      · intro hm; simp at hm
      · intro b tip hm; simp at hm
      · intro hm; simp at hm
      · intro hw; simp at hw
      · intro _ hm; simp at hm
      · simp [isBaseInitNodeEv, isCallBase]
      · simp [isCallBase, isCallExecInit]
      · exact precIn_of_not_mem (by simp)
      · exact precIn_of_not_mem (by simp)
      · exact precIn_of_not_mem (by simp)
      · exact precIn_of_not_mem (by simp)

theorem inv_step (env : Env) (s : Sys) (st : SchedStep) (h : Inv env s) :
    Inv env (step env s st) := by
  cases st with
  | worker =>
      cases hq : s.workerQ with
      | nil => simpa [step, hq] using h
      | cons e rest =>
          have hbc := h.baseCount
          rw [hq] at hbc
          have hmem : ∀ x ∈ rest, x ∈ s.workerQ := by
            intro x hx; rw [hq]; exact List.mem_cons_of_mem _ hx
          cases e with
          | baseInitNode =>
              cases hB : env.baseInitOk with
              | true =>
                  simp only [step, hq]
                  simp only [NodeWorker.baseInitNode, NodeWorker.initNode, hB,
                    if_true, List.append_assoc, List.singleton_append,
                    List.cons_append, List.nil_append]
                  refine ⟨?_, ?_, ?_, ?_, ?_, ?_, ?_, ?_, ?_, ?_, ?_, ?_, ?_⟩
                  · simp [h.allowClose_iff]
                  · intro hm; exact List.mem_append_left _ (h.doCloseQ hm)
                  · intro hm; exact List.mem_append_left _ (h.showQ hm)
                  · intro b tip hm; exact h.initResQ b tip (hmem _ hm)
                  · intro hm
                    rcases List.mem_append.mp hm with h1 | h1
                    · exact h.initSuccessOk h1
                    · simp at h1
                  · intro hw; exact List.mem_append_left _ (h.shown hw)
                  · intro hfalse; simp [hfalse] at hB
                  · simp only [List.countP_append, List.countP_cons, List.countP_nil,
                      isBaseInitNodeEv, isCallBase] at hbc ⊢
                    simp at hbc ⊢
                    omega
                  · have he := h.execLeBase
                    simp only [List.countP_append, List.countP_cons, List.countP_nil,
                      isCallBase, isCallExecInit] at he ⊢
                    simp at he ⊢
                    omega
                  · exact precIn_append_not_mem h.precDoCloseAccept (by simp)
                  · exact precIn_append_not_mem h.precAckDoClose (by simp)
                  · exact precIn_append_not_mem h.precInitSuccessShow (by simp)
                  · exact precIn_append_head h.precBaseExec
              | false =>
                  simp only [step, hq]
                  simp only [NodeWorker.baseInitNode, NodeWorker.onBaseInitFail, hB,
                    if_false, List.append_assoc, List.singleton_append,
                    List.cons_append, List.nil_append, Bool.false_eq_true]
                  refine ⟨?_, ?_, ?_, ?_, ?_, ?_, ?_, ?_, ?_, ?_, ?_, ?_, ?_⟩
                  · simp [h.allowClose_iff]
                  · intro hm; exact List.mem_append_left _ (h.doCloseQ hm)
                  · intro hm; exact List.mem_append_left _ (h.showQ hm)
                  · intro b tip hm; exact h.initResQ b tip (hmem _ hm)
                  · intro hm
                    rcases List.mem_append.mp hm with h1 | h1
                    · exact h.initSuccessOk h1
                    · simp at h1
                  · intro hw; exact List.mem_append_left _ (h.shown hw)
                  · intro hfalse
                    intro hc
                    rcases List.mem_append.mp hc with h1 | h1
                    · exact h.noExecInit hfalse h1
                    · simp at h1
                  · simp only [List.countP_append, List.countP_cons, List.countP_nil,
                      isBaseInitNodeEv, isCallBase] at hbc ⊢
                    simp at hbc ⊢
                    omega
                  · have he := h.execLeBase
                    simp only [List.countP_append, List.countP_cons, List.countP_nil,
                      isCallBase, isCallExecInit] at he ⊢
                    simp at he ⊢
                    omega
                  · exact precIn_append_not_mem h.precDoCloseAccept (by simp)
                  · exact precIn_append_not_mem h.precAckDoClose (by simp)
                  · exact precIn_append_not_mem h.precInitSuccessShow (by simp)
                  · exact precIn_append_not_mem h.precBaseExec (by simp)
          | listCommands =>
              simp only [step, hq]
              simp only [NodeWorker.listCommands, List.append_assoc,
                List.singleton_append, List.cons_append, List.nil_append]
              refine ⟨?_, ?_, ?_, ?_, ?_, ?_, ?_, ?_, ?_, ?_, ?_, ?_, ?_⟩
              · simp [h.allowClose_iff]
              · intro hm
                rcases List.mem_append.mp hm with h1 | h1
                · exact List.mem_append_left _ (h.doCloseQ h1)
                · simp at h1
              · intro hm
                rcases List.mem_append.mp hm with h1 | h1
                · exact List.mem_append_left _ (h.showQ h1)
                · simp at h1
              · intro b tip hm; exact h.initResQ b tip (hmem _ hm)
              · intro hm
                rcases List.mem_append.mp hm with h1 | h1
                · exact h.initSuccessOk h1
                · simp at h1
              · intro hw; exact List.mem_append_left _ (h.shown hw)
              · intro hfalse hc
                rcases List.mem_append.mp hc with h1 | h1
                · exact h.noExecInit hfalse h1
                · simp at h1
              · simp only [List.countP_append, List.countP_cons, List.countP_nil,
                  isBaseInitNodeEv, isCallBase] at hbc ⊢
                simp at hbc ⊢
                omega
              · have he := h.execLeBase
                simp only [List.countP_append, List.countP_cons, List.countP_nil,
                  isCallBase, isCallExecInit] at he ⊢
                simp at he ⊢
                omega
              · exact precIn_append_not_mem h.precDoCloseAccept (by simp)
              · exact precIn_append_not_mem h.precAckDoClose (by simp)
              · exact precIn_append_not_mem h.precInitSuccessShow (by simp)
              · exact precIn_append_not_mem h.precBaseExec (by simp)
          | onShutdown =>
              simp only [step, hq]
              simp only [NodeWorker.onShutdown, List.append_assoc,
                List.singleton_append, List.cons_append, List.nil_append]
              refine ⟨?_, ?_, ?_, ?_, ?_, ?_, ?_, ?_, ?_, ?_, ?_, ?_, ?_⟩
              · simp [h.allowClose_iff]
              · intro hm; exact List.mem_append_left _ (h.doCloseQ hm)
              · intro hm; exact List.mem_append_left _ (h.showQ hm)
              · intro b tip hm; exact h.initResQ b tip (hmem _ hm)
              · intro hm
                rcases List.mem_append.mp hm with h1 | h1
                · exact h.initSuccessOk h1
                · simp at h1
              · intro hw; exact List.mem_append_left _ (h.shown hw)
              · intro hfalse hc
                rcases List.mem_append.mp hc with h1 | h1
                · exact h.noExecInit hfalse h1
                · simp at h1
              · simp only [List.countP_append, List.countP_cons, List.countP_nil,
                  isBaseInitNodeEv, isCallBase] at hbc ⊢
                simp at hbc ⊢
                omega
              · have he := h.execLeBase
                simp only [List.countP_append, List.countP_cons, List.countP_nil,
                  isCallBase, isCallExecInit] at he ⊢
                simp at he ⊢
                omega
              · exact precIn_append_not_mem h.precDoCloseAccept (by simp)
              · exact precIn_append_not_mem h.precAckDoClose (by simp)
              · exact precIn_append_not_mem h.precInitSuccessShow (by simp)
              · exact precIn_append_not_mem h.precBaseExec (by simp)
          | initializeResult b tip =>
              have hbt : b = env.fullInitOk ∧ tip = env.tipInfo := by
                refine h.initResQ b tip ?_
                rw [hq]; exact List.mem_cons_self _ _
              cases hsucc : b with
              | true =>
                  simp only [step, hq]
                  simp only [NodeWorker.initializeResult, hsucc, if_true,
                    List.append_assoc, List.singleton_append, List.cons_append,
                    List.nil_append]
                  refine ⟨?_, ?_, ?_, ?_, ?_, ?_, ?_, ?_, ?_, ?_, ?_, ?_, ?_⟩
                  · simp [h.allowClose_iff]
                  · intro hm
                    rcases List.mem_append.mp hm with h1 | h1
                    · exact List.mem_append_left _ (h.doCloseQ h1)
                    · simp at h1
                  · intro hm
                    exact List.mem_append_right _ (by simp)
                  · intro b2 tip2 hm; exact h.initResQ b2 tip2 (hmem _ hm)
                  · intro _
                    rw [← hbt.1, hsucc]
                  · intro hw; exact List.mem_append_left _ (h.shown hw)
                  · intro hfalse hc
                    rcases List.mem_append.mp hc with h1 | h1
                    · exact h.noExecInit hfalse h1
                    · simp at h1
                  · simp only [List.countP_append, List.countP_cons, List.countP_nil,
                      isBaseInitNodeEv, isCallBase] at hbc ⊢
                    simp at hbc ⊢
                    omega
                  · have he := h.execLeBase
                    simp only [List.countP_append, List.countP_cons, List.countP_nil,
                      isCallBase, isCallExecInit] at he ⊢
                    simp at he ⊢
                    omega
                  · exact precIn_append_not_mem h.precDoCloseAccept (by simp)
                  · exact precIn_append_not_mem h.precAckDoClose (by simp)
                  · exact precIn_append_not_mem h.precInitSuccessShow (by simp)
                  · exact precIn_append_not_mem h.precBaseExec (by simp)
              | false =>
                  simp only [step, hq]
                  simp only [NodeWorker.initializeResult, NodeWorker.onInitFail, hsucc,
                    if_false, List.append_assoc, List.singleton_append,
                    List.cons_append, List.nil_append, Bool.false_eq_true]
                  refine ⟨?_, ?_, ?_, ?_, ?_, ?_, ?_, ?_, ?_, ?_, ?_, ?_, ?_⟩
                  · simp [h.allowClose_iff]
                  · intro hm; exact List.mem_append_left _ (h.doCloseQ hm)
                  · intro hm; exact List.mem_append_left _ (h.showQ hm)
                  · intro b2 tip2 hm; exact h.initResQ b2 tip2 (hmem _ hm)
                  · intro hm
                    rcases List.mem_append.mp hm with h1 | h1
                    · exact h.initSuccessOk h1
                    · simp at h1
                  · intro hw; exact List.mem_append_left _ (h.shown hw)
                  · intro hfalse hc
                    rcases List.mem_append.mp hc with h1 | h1
                    · exact h.noExecInit hfalse h1
                    · simp at h1
                  · simp only [List.countP_append, List.countP_cons, List.countP_nil,
                      isBaseInitNodeEv, isCallBase] at hbc ⊢
                    simp at hbc ⊢
                    omega
                  · have he := h.execLeBase
                    simp only [List.countP_append, List.countP_cons, List.countP_nil,
                      isCallBase, isCallExecInit] at he ⊢
                    simp at he ⊢
                    omega
                  · exact precIn_append_not_mem h.precDoCloseAccept (by simp)
                  · exact precIn_append_not_mem h.precAckDoClose (by simp)
                  · exact precIn_append_not_mem h.precInitSuccessShow (by simp)
                  · exact precIn_append_not_mem h.precBaseExec (by simp)
          | shutdownResultFwd =>
              simp only [step, hq]
              simp only [NodeWorker.shutdownResultFwd, List.append_assoc,
                List.singleton_append, List.cons_append, List.nil_append]
              refine ⟨?_, ?_, ?_, ?_, ?_, ?_, ?_, ?_, ?_, ?_, ?_, ?_, ?_⟩
              · simp [h.allowClose_iff]
              · intro hm
                exact List.mem_append_right _ (by simp)
              · intro hm
                rcases List.mem_append.mp hm with h1 | h1
                · exact List.mem_append_left _ (h.showQ h1)
                · simp at h1
              · intro b2 tip2 hm; exact h.initResQ b2 tip2 (hmem _ hm)
              · intro hm
                rcases List.mem_append.mp hm with h1 | h1
                · exact h.initSuccessOk h1
                · simp at h1
              · intro hw; exact List.mem_append_left _ (h.shown hw)
              · intro hfalse hc
                rcases List.mem_append.mp hc with h1 | h1
                · exact h.noExecInit hfalse h1
                · simp at h1
              · simp only [List.countP_append, List.countP_cons, List.countP_nil,
                  isBaseInitNodeEv, isCallBase] at hbc ⊢
                simp at hbc ⊢
                omega
              · have he := h.execLeBase
                simp only [List.countP_append, List.countP_cons, List.countP_nil,
                  isCallBase, isCallExecInit] at he ⊢
                simp at he ⊢
                omega
              · exact precIn_append_not_mem h.precDoCloseAccept (by simp)
              · exact precIn_append_not_mem h.precAckDoClose (by simp)
              · exact precIn_append_not_mem h.precInitSuccessShow (by simp)
              · exact precIn_append_not_mem h.precBaseExec (by simp)
  | gui =>
      cases hq : s.guiQ with
      | nil => simpa [step, hq] using h
      | cons e rest =>
          have hmem : ∀ x ∈ rest, x ∈ s.guiQ := by
            intro x hx; rw [hq]; exact List.mem_cons_of_mem _ hx
          cases e with
          | rcvCommands cmds =>
              have hz1 : (cmds.map Action.logCommand).countP isCallBase = 0 := by
                refine List.countP_eq_zero.mpr ?_
                intro a ha
                rcases List.mem_map.mp ha with ⟨c, -, rfl⟩
                simp [isCallBase]
              have hz2 : (cmds.map Action.logCommand).countP isCallExecInit = 0 := by
                refine List.countP_eq_zero.mpr ?_
                intro a ha
                rcases List.mem_map.mp ha with ⟨c, -, rfl⟩
                simp [isCallExecInit]
              simp only [step, hq]
              simp only [BitcoinGUI.rcvCommands, List.append_assoc,
                List.singleton_append, List.cons_append, List.nil_append]
              refine ⟨?_, ?_, ?_, ?_, ?_, ?_, ?_, ?_, ?_, ?_, ?_, ?_, ?_⟩
              · simp [h.allowClose_iff]
              · intro hm; exact List.mem_append_left _ (h.doCloseQ (hmem _ hm))
              · intro hm; exact List.mem_append_left _ (h.showQ (hmem _ hm))
              · intro b2 tip2 hm; exact h.initResQ b2 tip2 hm
              · intro hm
                rcases List.mem_append.mp hm with h1 | h1
                · exact h.initSuccessOk h1
                · rcases List.mem_map.mp h1 with ⟨c, -, hc⟩
                  cases hc
              · intro hw; exact List.mem_append_left _ (h.shown hw)
              · intro hfalse hc
                rcases List.mem_append.mp hc with h1 | h1
                · exact h.noExecInit hfalse h1
                · rcases List.mem_map.mp h1 with ⟨c, -, hc2⟩
                  cases hc2
              · have hbc := h.baseCount
                simp only [List.countP_append, hz1]
                omega
              · have he := h.execLeBase
                simp only [List.countP_append, hz1, hz2]
                omega
              · refine precIn_append_not_mem h.precDoCloseAccept ?_
                intro hm; rcases List.mem_map.mp hm with ⟨c, -, hc⟩; cases hc
              · refine precIn_append_not_mem h.precAckDoClose ?_
                intro hm; rcases List.mem_map.mp hm with ⟨c, -, hc⟩; cases hc
              · refine precIn_append_not_mem h.precInitSuccessShow ?_
                intro hm; rcases List.mem_map.mp hm with ⟨c, -, hc⟩; cases hc
              · refine precIn_append_not_mem h.precBaseExec ?_
                intro hm; rcases List.mem_map.mp hm with ⟨c, -, hc⟩; cases hc
          | doClose =>
              have hd : Action.emit Sig.shutdownResult ∈ s.trace := by
                refine h.doCloseQ ?_
                rw [hq]; exact List.mem_cons_self _ _
              simp only [step, hq]
              simp only [BitcoinGUI.doClose, List.append_assoc,
                List.singleton_append, List.cons_append, List.nil_append]
              refine ⟨?_, ?_, ?_, ?_, ?_, ?_, ?_, ?_, ?_, ?_, ?_, ?_, ?_⟩
              · simp
              · intro hm; exact List.mem_append_left _ (h.doCloseQ (hmem _ hm))
              · intro hm; exact List.mem_append_left _ (h.showQ (hmem _ hm))
              · intro b2 tip2 hm; exact h.initResQ b2 tip2 hm
              · intro hm
                rcases List.mem_append.mp hm with h1 | h1
                · exact h.initSuccessOk h1
                · simp at h1
              · intro hw; exact List.mem_append_left _ (h.shown hw)
              · intro hfalse hc
                rcases List.mem_append.mp hc with h1 | h1
                · exact h.noExecInit hfalse h1
                · simp at h1
              · have hbc := h.baseCount
                simp only [List.countP_append, List.countP_cons, List.countP_nil,
                  isCallBase]
                simp
                omega
              · have he := h.execLeBase
                simp only [List.countP_append, List.countP_cons, List.countP_nil,
                  isCallBase, isCallExecInit]
                simp
                omega
              · exact precIn_append_not_mem h.precDoCloseAccept (by simp)
              · exact precIn_append_mem_left h.precAckDoClose hd
              · exact precIn_append_not_mem h.precInitSuccessShow (by simp)
              · exact precIn_append_not_mem h.precBaseExec (by simp)
          | showWin =>
              have hd : Action.emit Sig.initSuccess ∈ s.trace := by
                refine h.showQ ?_
                rw [hq]; exact List.mem_cons_self _ _
              simp only [step, hq]
              simp only [BitcoinGUI.showWin, List.append_assoc,
                List.singleton_append, List.cons_append, List.nil_append]
              refine ⟨?_, ?_, ?_, ?_, ?_, ?_, ?_, ?_, ?_, ?_, ?_, ?_, ?_⟩
              · simp [h.allowClose_iff]
              · intro hm; exact List.mem_append_left _ (h.doCloseQ (hmem _ hm))
              · intro hm; exact List.mem_append_left _ (h.showQ (hmem _ hm))
              · intro b2 tip2 hm; exact h.initResQ b2 tip2 hm
              · intro hm
                rcases List.mem_append.mp hm with h1 | h1
                · exact h.initSuccessOk h1
                · simp at h1
              · intro _; exact List.mem_append_left _ hd
              · intro hfalse hc
                rcases List.mem_append.mp hc with h1 | h1
                · exact h.noExecInit hfalse h1
                · simp at h1
              · have hbc := h.baseCount
                simp only [List.countP_append, List.countP_cons, List.countP_nil,
                  isCallBase]
                simp
                omega
              · have he := h.execLeBase
                simp only [List.countP_append, List.countP_cons, List.countP_nil,
                  isCallBase, isCallExecInit]
                simp
                omega
              · exact precIn_append_not_mem h.precDoCloseAccept (by simp)
              · exact precIn_append_not_mem h.precAckDoClose (by simp)
              · exact precIn_append_mem_left h.precInitSuccessShow hd
              · exact precIn_append_not_mem h.precBaseExec (by simp)
  | execu =>
      cases hq : s.execQ with
      | nil => simpa [step, hq] using h
      | cons t rest =>
          cases t with
          | initReq =>
              simp only [step, hq]
              simp only [InitExecutor.step, List.append_assoc,
                List.singleton_append, List.cons_append, List.nil_append]
              refine ⟨?_, ?_, ?_, ?_, ?_, ?_, ?_, ?_, ?_, ?_, ?_, ?_, ?_⟩
              · simp [h.allowClose_iff]
              · intro hm; exact List.mem_append_left _ (h.doCloseQ hm)
              · intro hm; exact List.mem_append_left _ (h.showQ hm)
              · intro b2 tip2 hm
                rcases List.mem_append.mp hm with h1 | h1
                · exact h.initResQ b2 tip2 h1
                · simp at h1
                  exact ⟨h1.1, h1.2⟩
              · intro hm
                rcases List.mem_append.mp hm with h1 | h1
                · exact h.initSuccessOk h1
                · simp at h1
              · intro hw; exact List.mem_append_left _ (h.shown hw)
              · intro hfalse hc
                rcases List.mem_append.mp hc with h1 | h1
                · exact h.noExecInit hfalse h1
                · simp at h1
              · have hbc := h.baseCount
                simp only [List.countP_append, List.countP_cons, List.countP_nil,
                  isBaseInitNodeEv, isCallBase] at hbc ⊢
                simp at hbc ⊢
                omega
              · have he := h.execLeBase
                simp only [List.countP_append, List.countP_cons, List.countP_nil,
                  isCallBase, isCallExecInit] at he ⊢
                simp at he ⊢
                omega
              · exact precIn_append_not_mem h.precDoCloseAccept (by simp)
              · exact precIn_append_not_mem h.precAckDoClose (by simp)
              · exact precIn_append_not_mem h.precInitSuccessShow (by simp)
              · exact precIn_append_not_mem h.precBaseExec (by simp)
          | shutdown =>
              simp only [step, hq]
              simp only [InitExecutor.step, List.append_assoc,
                List.singleton_append, List.cons_append, List.nil_append]
              refine ⟨?_, ?_, ?_, ?_, ?_, ?_, ?_, ?_, ?_, ?_, ?_, ?_, ?_⟩
              · simp [h.allowClose_iff]
              · intro hm; exact List.mem_append_left _ (h.doCloseQ hm)
              · intro hm; exact List.mem_append_left _ (h.showQ hm)
              · intro b2 tip2 hm
                rcases List.mem_append.mp hm with h1 | h1
                · exact h.initResQ b2 tip2 h1
                · simp at h1
              · intro hm
                rcases List.mem_append.mp hm with h1 | h1
                · exact h.initSuccessOk h1
                · simp at h1
              · intro hw; exact List.mem_append_left _ (h.shown hw)
              · intro hfalse hc
                rcases List.mem_append.mp hc with h1 | h1
                · exact h.noExecInit hfalse h1
                · simp at h1
              · have hbc := h.baseCount
                simp only [List.countP_append, List.countP_cons, List.countP_nil,
                  isBaseInitNodeEv, isCallBase] at hbc ⊢
                simp at hbc ⊢
                omega
              · have he := h.execLeBase
                simp only [List.countP_append, List.countP_cons, List.countP_nil,
                  isCallBase, isCallExecInit] at he ⊢
                simp at he ⊢
                omega
              · exact precIn_append_not_mem h.precDoCloseAccept (by simp)
              · exact precIn_append_not_mem h.precAckDoClose (by simp)
              · exact precIn_append_not_mem h.precInitSuccessShow (by simp)
              · exact precIn_append_not_mem h.precBaseExec (by simp)
  | click =>
      simp only [step]
      simp only [BitcoinGUI.buttonClick, List.append_assoc,
        List.singleton_append, List.cons_append, List.nil_append]
      refine ⟨?_, ?_, ?_, ?_, ?_, ?_, ?_, ?_, ?_, ?_, ?_, ?_, ?_⟩
      · simp [h.allowClose_iff]
      · intro hm; exact List.mem_append_left _ (h.doCloseQ hm)
      · intro hm; exact List.mem_append_left _ (h.showQ hm)
      · intro b2 tip2 hm
        rcases List.mem_append.mp hm with h1 | h1
        · exact h.initResQ b2 tip2 h1
        · simp at h1
      · intro hm
        rcases List.mem_append.mp hm with h1 | h1
        · exact h.initSuccessOk h1
        · simp at h1
      · intro hw; exact List.mem_append_left _ (h.shown hw)
      · intro hfalse hc
        rcases List.mem_append.mp hc with h1 | h1
        · exact h.noExecInit hfalse h1
        · simp at h1
      · have hbc := h.baseCount
        simp only [List.countP_append, List.countP_cons, List.countP_nil,
          isBaseInitNodeEv, isCallBase] at hbc ⊢
        simp at hbc ⊢
        omega
      · have he := h.execLeBase
        simp only [List.countP_append, List.countP_cons, List.countP_nil,
          isCallBase, isCallExecInit] at he ⊢
        simp at he ⊢
        omega
      · exact precIn_append_not_mem h.precDoCloseAccept (by simp)
      · exact precIn_append_not_mem h.precAckDoClose (by simp)
      · exact precIn_append_not_mem h.precInitSuccessShow (by simp)
      · exact precIn_append_not_mem h.precBaseExec (by simp)
  | close =>
      cases hac : s.allow_close with
      | true =>
          have hd : Action.processDoClose ∈ s.trace := h.allowClose_iff.mp hac
          simp only [step]
          simp only [BitcoinGUI.closeEvent, hac, if_true, List.append_assoc,
            List.singleton_append, List.cons_append, List.nil_append]
          refine ⟨?_, ?_, ?_, ?_, ?_, ?_, ?_, ?_, ?_, ?_, ?_, ?_, ?_⟩
          · simp [hac, hd]
          · intro hm; exact List.mem_append_left _ (h.doCloseQ hm)
          · intro hm; exact List.mem_append_left _ (h.showQ hm)
          · intro b2 tip2 hm
            rcases List.mem_append.mp hm with h1 | h1
            · exact h.initResQ b2 tip2 h1
            · simp at h1
          · intro hm
            rcases List.mem_append.mp hm with h1 | h1
            · exact h.initSuccessOk h1
            · simp at h1
          · intro hw; exact List.mem_append_left _ (h.shown hw)
          · intro hfalse hc
            rcases List.mem_append.mp hc with h1 | h1
            · exact h.noExecInit hfalse h1
            · simp at h1
          · have hbc := h.baseCount
            simp only [List.countP_append, List.countP_cons, List.countP_nil,
              isBaseInitNodeEv, isCallBase] at hbc ⊢
            simp at hbc ⊢
            omega
          · have he := h.execLeBase
            simp only [List.countP_append, List.countP_cons, List.countP_nil,
              isCallBase, isCallExecInit] at he ⊢
            simp at he ⊢
            omega
          · exact precIn_append_mem_left h.precDoCloseAccept hd
          · exact precIn_append_not_mem h.precAckDoClose (by simp)
          · exact precIn_append_not_mem h.precInitSuccessShow (by simp)
          · exact precIn_append_not_mem h.precBaseExec (by simp)
      | false =>
          have hd : Action.processDoClose ∉ s.trace := by
            intro hm
            rw [h.allowClose_iff.mpr hm] at hac
            cases hac
          simp only [step]
          simp only [BitcoinGUI.closeEvent, hac, if_false, List.append_assoc,
            List.singleton_append, List.cons_append, List.nil_append,
            Bool.false_eq_true]
          refine ⟨?_, ?_, ?_, ?_, ?_, ?_, ?_, ?_, ?_, ?_, ?_, ?_, ?_⟩
          · simp [hac, hd]
          · intro hm; exact List.mem_append_left _ (h.doCloseQ hm)
          · intro hm; exact List.mem_append_left _ (h.showQ hm)
          · intro b2 tip2 hm
            rcases List.mem_append.mp hm with h1 | h1
            · exact h.initResQ b2 tip2 h1
            · simp at h1
          · intro hm
            rcases List.mem_append.mp hm with h1 | h1
            · exact h.initSuccessOk h1
            · simp at h1
          · intro hw; exact List.mem_append_left _ (h.shown hw)
          · intro hfalse hc
            rcases List.mem_append.mp hc with h1 | h1
            · exact h.noExecInit hfalse h1
            · simp at h1
          · have hbc := h.baseCount
            simp only [List.countP_append, List.countP_cons, List.countP_nil,
              isBaseInitNodeEv, isCallBase] at hbc ⊢
            simp at hbc ⊢
            omega
          · have he := h.execLeBase
            simp only [List.countP_append, List.countP_cons, List.countP_nil,
              isCallBase, isCallExecInit] at he ⊢
            simp at he ⊢
            omega
          · exact precIn_append_not_mem h.precDoCloseAccept (by simp)
          · exact precIn_append_not_mem h.precAckDoClose (by simp)
          · exact precIn_append_not_mem h.precInitSuccessShow (by simp)
          · exact precIn_append_not_mem h.precBaseExec (by simp)

theorem inv_run (env : Env) (sched : List SchedStep) (s : Sys) (h : Inv env s) :
    Inv env (run env s sched) := by
  induction sched generalizing s with
  | nil => exact h
  | cons st sched ih => exact ih _ (inv_step env s st h)

/-- C1, counterexample: with a failing configuration parse (and every
later phase succeeding), the failure is logged and `QApplication::exit(1)`
is called during `GuiController` construction, yet the run exits with 0,
not 1 — so the claim's "the process exits with exit code 1" is false on
the code: the constructor's exit call precedes `exec()` and is a Qt
no-op, and `GuiMain` discards `exec()`'s return value and returns
`EXIT_SUCCESS` once the loop exits (here via `doClose`'s exit(0)). -/
theorem c1_counterexample :
    Action.logConfigError "bad conf" ∈ (GuiMain envConfFail normalSched).1 ∧
    Action.exitCall 1 ∈ (GuiMain envConfFail normalSched).1 ∧
    (GuiMain envConfFail normalSched).2 = some 0 ∧
    (GuiMain envConfFail normalSched).2 ≠ some 1 := by
  refine ⟨by decide, by decide, by decide, by decide⟩

/-- C1, amended: if parsing the configuration file fails during
`GuiController` construction, the failure is logged (qCritical) and
`QApplication::exit(1)` is called; but that call is made before `exec()`
starts and is a documented Qt no-op, so it does not terminate the event
loop — with nothing happening during the loop `GuiMain` never returns —
and the process never exits with code 1: whenever `GuiMain` does return
after the event loop, its exit code is 0 (`GuiMain` discards `exec()`'s
return value and returns `EXIT_SUCCESS`). -/
theorem c1_amended (env : Env) (msg : String) (sched : List SchedStep)
    (hp : env.parseParamsOk = true) (hex : env.ctorException = none)
    (hc : env.configError = some msg) :
    Action.logConfigError msg ∈ (GuiMain env sched).1 ∧
    Action.exitCall 1 ∈ (GuiMain env sched).1 ∧
    (∀ c : Nat, (GuiMain env sched).2 = some c → c = 0) ∧
    (GuiMain env []).2 = none := by
  obtain ⟨u, hu⟩ := run_trace_mono env sched (GuiController.construct env initialSys)
  have hctor : (GuiController.construct env initialSys).trace =
      [Action.logConfigError msg, Action.exitCall 1, Action.initLogging,
       Action.initParamInteraction, Action.constructWindow, Action.constructWorker,
       Action.startThread, Action.emit Sig.initNode] := by
    simp [GuiController.construct, hc, initialSys]
  have hg : GuiMain env sched =
      ((run env (GuiController.construct env initialSys) sched).trace,
        (execReturn ((run env (GuiController.construct env initialSys) sched).trace.drop
          (GuiController.construct env initialSys).trace.length)).map (fun _ => 0)) := by
    simp [GuiMain, hp, hex]
  refine ⟨?_, ?_, ?_, ?_⟩
  · rw [hg]; rw [hu, hctor]; simp
  · rw [hg]; rw [hu, hctor]; simp
  · intro c hcq
    rw [hg] at hcq
    rcases Option.map_eq_some'.mp hcq with ⟨d, -, hcd⟩
    exact hcd.symm
  · have hg0 : (GuiMain env []).2 =
        (execReturn ((GuiController.construct env initialSys).trace.drop
          (GuiController.construct env initialSys).trace.length)).map (fun _ => 0) := by
      simp [GuiMain, hp, hex, run]
    rw [hg0, List.drop_length]
    rfl

/-- C1, witness: the amended claim instantiated at the concrete
configuration-failure environment and the empty schedule — the failure is
logged, exit(1) is called, and yet the event loop does not exit. -/
theorem c1_witness :
    Action.logConfigError "bad conf" ∈ (GuiMain envConfFail []).1 ∧
    Action.exitCall 1 ∈ (GuiMain envConfFail []).1 ∧
    (GuiMain envConfFail []).2 = none :=
  ⟨(c1_amended envConfFail "bad conf" [] rfl rfl rfl).1,
   (c1_amended envConfFail "bad conf" [] rfl rfl rfl).2.1,
   (c1_amended envConfFail "bad conf" [] rfl rfl rfl).2.2.2⟩

/-- C2: for every run (every environment and schedule), a close request
on the main window is accepted only after `BitcoinGUI::doClose` has
executed, and `doClose` executes only after the worker has acknowledged
shutdown by emitting its `shutdownResult` signal; in the canonical
successful run the first close request is ignored, the close request
after the handshake is accepted, and the application then exits with
code 0. -/
theorem c2_close_handshake (env : Env) (sched : List SchedStep) :
    PrecIn Action.processDoClose Action.closeAccepted
      (run env (GuiController.construct env initialSys) sched).trace ∧
    PrecIn (Action.emit Sig.shutdownResult) Action.processDoClose
      (run env (GuiController.construct env initialSys) sched).trace ∧
    Action.closeIgnored ∈ (GuiMain (envOk tipC ["getinfo"]) normalSched).1 ∧
    Action.closeAccepted ∈ (GuiMain (envOk tipC ["getinfo"]) normalSched).1 ∧
    (GuiMain (envOk tipC ["getinfo"]) normalSched).2 = some 0 := by
  have hi := inv_run env sched _ (inv_construct env)
  exact ⟨hi.precDoCloseAccept, hi.precAckDoClose, by decide, by decide, by decide⟩

/-- C3: initialization is two sequential phases: in every run,
`m_executor->initialize()` (full initialization) is invoked only after
`m_node->baseInitialize()` has returned true — never before — and if
`baseInitialize()` returns false, full initialization is never started. -/
theorem c3_two_phase_gating (env : Env) (sched : List SchedStep) :
    PrecIn (Action.callBaseInit true) Action.callExecutorInit
      (run env (GuiController.construct env initialSys) sched).trace ∧
    (Action.callExecutorInit ∈
        (run env (GuiController.construct env initialSys) sched).trace →
      Action.callBaseInit true ∈
        (run env (GuiController.construct env initialSys) sched).trace) ∧
    (env.baseInitOk = false →
      Action.callExecutorInit ∉
        (run env (GuiController.construct env initialSys) sched).trace) := by
  have hi := inv_run env sched _ (inv_construct env)
  exact ⟨hi.precBaseExec, fun hm => hi.precBaseExec _ List.prefix_rfl hm, hi.noExecInit⟩

/-- C3, witness: with `baseInitialize()` returning false, full
initialization is never started in the run that processes the base-init
request. -/
theorem c3_witness :
    Action.callExecutorInit ∉
      (run envBaseFail (GuiController.construct envBaseFail initialSys)
        [SchedStep.worker]).trace :=
  (c3_two_phase_gating envBaseFail [SchedStep.worker]).2.2 rfl

/-- C4: the main window is shown iff the full-initialization result
reports success: in every run the window-show action is never executed
before an `initSuccess` emission (which only a successful
`initializeResult` produces), when the result reports failure the window
is never shown, and in the canonical successful run the window is
shown. -/
theorem c4_show_iff_success (env : Env) (sched : List SchedStep) :
    PrecIn (Action.emit Sig.initSuccess) Action.showWindow
      (run env (GuiController.construct env initialSys) sched).trace ∧
    (env.fullInitOk = false →
      (run env (GuiController.construct env initialSys) sched).windowShown = false) ∧
    (run (envOk tipC []) (GuiController.construct (envOk tipC []) initialSys)
      showSched).windowShown = true := by
  have hi := inv_run env sched _ (inv_construct env)
  refine ⟨hi.precInitSuccessShow, ?_, by decide⟩
  intro hf
  cases hw : (run env (GuiController.construct env initialSys) sched).windowShown with
  | false => rfl
  | true =>
      have h2 := hi.initSuccessOk (hi.shown hw)
      rw [hf] at h2
      cases h2

/-- C4, witness: with the full-initialization result reporting failure,
the window is not shown even after both deliveries of the result are
processed. -/
theorem c4_witness :
    (run envFullFail (GuiController.construct envFullFail initialSys)
      failFullSched).windowShown = false :=
  (c4_show_iff_success envFullFail failFullSched).2.1 rfl

/-- C5: for a button click, the worker's `listCommands` slot queries
`listRpcCommands()` on the node and forwards exactly the returned
sequence to the window (one queued `rcvCommands` carrying the unmodified
list); the window's `rcvCommands` logs exactly the received strings, one
log entry per string, in order, appended to the existing log; and end to
end, a click after startup makes the logged command names exactly the
sequence returned by `listRpcCommands()`, with no element added, dropped
or modified. -/
theorem c5_commands_logged (env : Env) (s : Sys) (cmds cmds2 : List String) :
    (NodeWorker.listCommands env s).guiQ =
      s.guiQ ++ [GuiEv.rcvCommands env.rpcCommands] ∧
    Action.callListRpcCommands env.rpcCommands ∈ (NodeWorker.listCommands env s).trace ∧
    loggedCommands (BitcoinGUI.rcvCommands s cmds2).trace =
      loggedCommands s.trace ++ cmds2 ∧
    loggedCommands (run (envOk tipC cmds)
      (GuiController.construct (envOk tipC cmds) initialSys) clickSched).trace = cmds := by
  refine ⟨rfl, by simp [NodeWorker.listCommands], ?_, ?_⟩
  · simp [BitcoinGUI.rcvCommands, loggedCommands_append, loggedCommands_map]
  · have ht : (run (envOk tipC cmds)
        (GuiController.construct (envOk tipC cmds) initialSys) clickSched).trace =
        [Action.initLogging, Action.initParamInteraction, Action.constructWindow,
         Action.constructWorker, Action.startThread, Action.emit Sig.initNode,
         Action.callBaseInit true, Action.emit Sig.baseInitSuccess,
         Action.callExecutorInit, Action.emit Sig.execInitializeResult,
         Action.logHeaderHeight 0, Action.emit Sig.initSuccess,
         Action.logHeaderHeight 0, Action.emit Sig.initSuccess,
         Action.showWindow, Action.showWindow, Action.emit Sig.listCommands,
         Action.callListRpcCommands cmds, Action.emit Sig.commands] ++
          cmds.map Action.logCommand := rfl
    rw [ht, loggedCommands_append, loggedCommands_map]
    rfl

/-- C6, counterexample: with `baseInitialize()` returning false, exit(1)
is requested but `GuiMain` returns 0, not 1 — the claim's "the process
exits with code 1" is false on the code, which discards `exec()`'s
return value and returns `EXIT_SUCCESS`. -/
theorem c6_counterexample :
    Action.exitCall 1 ∈ (GuiMain envBaseFail [SchedStep.worker]).1 ∧
    (GuiMain envBaseFail [SchedStep.worker]).2 = some 0 ∧
    (GuiMain envBaseFail [SchedStep.worker]).2 ≠ some 1 := by
  refine ⟨by decide, by decide, by decide⟩

/-- C6, amended: node-initialization failure at either phase is fatal and
never retried — in every run `baseInitialize()` is called at most once
and `m_executor->initialize()` is called at most once; a false
`baseInitialize()` leads to a `QCoreApplication::exit(1)` request and a
failing full-initialization result likewise; but the process exit code is
0, not 1, because `GuiMain` discards `exec()`'s return value and returns
`EXIT_SUCCESS`. -/
theorem c6_amended (env : Env) (sched rest : List SchedStep) :
    ((run env (GuiController.construct env initialSys) sched).trace.countP isCallBase ≤ 1 ∧
     (run env (GuiController.construct env initialSys) sched).trace.countP isCallExecInit ≤ 1) ∧
    (env.parseParamsOk = true → env.ctorException = none → env.baseInitOk = false →
      Action.exitCall 1 ∈ (GuiMain env (SchedStep.worker :: rest)).1 ∧
      (GuiMain env (SchedStep.worker :: rest)).2 = some 0) ∧
    (env.parseParamsOk = true → env.ctorException = none → env.baseInitOk = true →
        env.fullInitOk = false →
      Action.exitCall 1 ∈ (GuiMain env (SchedStep.worker :: SchedStep.execu ::
        SchedStep.worker :: rest)).1 ∧
      (GuiMain env (SchedStep.worker :: SchedStep.execu ::
        SchedStep.worker :: rest)).2 = some 0) := by
  have hi := inv_run env sched _ (inv_construct env)
  refine ⟨⟨?_, ?_⟩, ?_, ?_⟩
  · have h1 := hi.baseCount
    omega
  · have h1 := hi.baseCount
    have h2 := hi.execLeBase
    omega
  · intro hp hex hbf
    have hg : GuiMain env (SchedStep.worker :: rest) =
        ((run env (GuiController.construct env initialSys)
            (SchedStep.worker :: rest)).trace,
          (execReturn ((run env (GuiController.construct env initialSys)
              (SchedStep.worker :: rest)).trace.drop
            (GuiController.construct env initialSys).trace.length)).map (fun _ => 0)) := by
      simp [GuiMain, hp, hex]
    have htr : (step env (GuiController.construct env initialSys) SchedStep.worker).trace =
        (GuiController.construct env initialSys).trace ++
          [Action.callBaseInit false, Action.emit Sig.baseInitFail, Action.exitCall 1] := by
      have hq0 : (GuiController.construct env initialSys).workerQ =
          [WorkerEv.baseInitNode] := by
        cases hcc : env.configError <;> simp [GuiController.construct, initialSys, hcc]
      simp [step, hq0, NodeWorker.baseInitNode, NodeWorker.onBaseInitFail, hbf]
    obtain ⟨u, hu⟩ := run_trace_mono env rest
      (step env (GuiController.construct env initialSys) SchedStep.worker)
    have hrun : (run env (GuiController.construct env initialSys)
        (SchedStep.worker :: rest)).trace =
        (GuiController.construct env initialSys).trace ++
          ([Action.callBaseInit false, Action.emit Sig.baseInitFail, Action.exitCall 1] ++ u) := by
      rw [run, hu, htr, List.append_assoc]
    have hmem : Action.exitCall 1 ∈ (run env (GuiController.construct env initialSys)
        (SchedStep.worker :: rest)).trace := by
      rw [hrun]; simp
    have hsuf : (run env (GuiController.construct env initialSys)
        (SchedStep.worker :: rest)).trace.drop
          (GuiController.construct env initialSys).trace.length =
        [Action.callBaseInit false, Action.emit Sig.baseInitFail, Action.exitCall 1] ++ u := by
      rw [hrun, List.drop_left]
    obtain ⟨d, hd⟩ := execReturn_of_exit_mem
      (show Action.exitCall 1 ∈ [Action.callBaseInit false, Action.emit Sig.baseInitFail,
        Action.exitCall 1] ++ u by simp)
    rw [hg]
    exact ⟨hmem, by rw [hsuf, hd]; rfl⟩
  · intro hp hex hbt hff
    have hg : GuiMain env (SchedStep.worker :: SchedStep.execu :: SchedStep.worker :: rest) =
        ((run env (GuiController.construct env initialSys)
            (SchedStep.worker :: SchedStep.execu :: SchedStep.worker :: rest)).trace,
          (execReturn ((run env (GuiController.construct env initialSys)
              (SchedStep.worker :: SchedStep.execu :: SchedStep.worker :: rest)).trace.drop
            (GuiController.construct env initialSys).trace.length)).map (fun _ => 0)) := by
      simp [GuiMain, hp, hex]
    have htr3 : (run env (GuiController.construct env initialSys)
        [SchedStep.worker, SchedStep.execu, SchedStep.worker]).trace =
        (GuiController.construct env initialSys).trace ++
          [Action.callBaseInit true, Action.emit Sig.baseInitSuccess,
           Action.callExecutorInit, Action.emit Sig.execInitializeResult,
           Action.logHeaderHeight env.tipInfo.header_height, Action.emit Sig.initFail,
           Action.exitCall 1] := by
      cases hcc : env.configError <;>
        simp [run, step, GuiController.construct, initialSys, hcc,
          NodeWorker.baseInitNode, NodeWorker.initNode, InitExecutor.step,
          NodeWorker.initializeResult, NodeWorker.onInitFail, hbt, hff]
    have hsplit : (SchedStep.worker :: SchedStep.execu :: SchedStep.worker :: rest) =
        [SchedStep.worker, SchedStep.execu, SchedStep.worker] ++ rest := rfl
    obtain ⟨u, hu⟩ := run_trace_mono env rest
      (run env (GuiController.construct env initialSys)
        [SchedStep.worker, SchedStep.execu, SchedStep.worker])
    have hrun3 : (run env (GuiController.construct env initialSys)
        (SchedStep.worker :: SchedStep.execu :: SchedStep.worker :: rest)).trace =
        (GuiController.construct env initialSys).trace ++
          ([Action.callBaseInit true, Action.emit Sig.baseInitSuccess,
            Action.callExecutorInit, Action.emit Sig.execInitializeResult,
            Action.logHeaderHeight env.tipInfo.header_height, Action.emit Sig.initFail,
            Action.exitCall 1] ++ u) := by
      rw [hsplit, run_append, hu, htr3, List.append_assoc]
    have hmem : Action.exitCall 1 ∈ (run env (GuiController.construct env initialSys)
        (SchedStep.worker :: SchedStep.execu :: SchedStep.worker :: rest)).trace := by
      rw [hrun3]; simp
    have hsuf : (run env (GuiController.construct env initialSys)
        (SchedStep.worker :: SchedStep.execu :: SchedStep.worker :: rest)).trace.drop
          (GuiController.construct env initialSys).trace.length =
        [Action.callBaseInit true, Action.emit Sig.baseInitSuccess,
         Action.callExecutorInit, Action.emit Sig.execInitializeResult,
         Action.logHeaderHeight env.tipInfo.header_height, Action.emit Sig.initFail,
         Action.exitCall 1] ++ u := by
      rw [hrun3, List.drop_left]
    obtain ⟨d, hd⟩ := execReturn_of_exit_mem
      (show Action.exitCall 1 ∈ [Action.callBaseInit true, Action.emit Sig.baseInitSuccess,
        Action.callExecutorInit, Action.emit Sig.execInitializeResult,
        Action.logHeaderHeight env.tipInfo.header_height, Action.emit Sig.initFail,
        Action.exitCall 1] ++ u by simp)
    rw [hg]
    exact ⟨hmem, by rw [hsuf, hd]; rfl⟩

/-- C6, witness: the amended claim's base-init-failure part instantiated
at the concrete failing environment. -/
theorem c6_witness :
    Action.exitCall 1 ∈ (GuiMain envBaseFail [SchedStep.worker]).1 ∧
    (GuiMain envBaseFail [SchedStep.worker]).2 = some 0 :=
  (c6_amended envBaseFail [] []).2.1 rfl rfl rfl

/-- C7: `GuiMain` returns exit code 1 when command-line parameter parsing
fails (logging the parse error) and when an exception escapes controller
construction (the exception being logged at the top level), and whenever
the application event loop exits and `GuiMain` returns, the returned
code is 0. -/
theorem c7_guimain_codes (env : Env) (sched : List SchedStep) (msg : String) :
    (env.parseParamsOk = false →
      (GuiMain env sched).2 = some 1 ∧
      Action.logParseError "parse error" ∈ (GuiMain env sched).1) ∧
    (env.ctorException = some msg → env.parseParamsOk = true →
      (GuiMain env sched).2 = some 1 ∧ Action.logException msg ∈ (GuiMain env sched).1) ∧
    (env.parseParamsOk = true → env.ctorException = none →
      ∀ c : Nat, (GuiMain env sched).2 = some c → c = 0) := by
  refine ⟨?_, ?_, ?_⟩
  · intro hp; simp [GuiMain, hp]
  · intro hex hp; simp [GuiMain, hp, hex]
  · intro hp hex c hc
    have hg : GuiMain env sched =
        ((run env (GuiController.construct env initialSys) sched).trace,
          (execReturn ((run env (GuiController.construct env initialSys) sched).trace.drop
            (GuiController.construct env initialSys).trace.length)).map (fun _ => 0)) := by
      simp [GuiMain, hp, hex]
    rw [hg] at hc
    rcases Option.map_eq_some'.mp hc with ⟨d, -, hcd⟩
    exact hcd.symm

/-- C7, witness: the three parts instantiated at the concrete
parameter-parse-failure, exception, and successful environments. -/
theorem c7_witness :
    (GuiMain envParseFail []).2 = some 1 ∧
    ((GuiMain envThrow []).2 = some 1 ∧
      Action.logException "boom" ∈ (GuiMain envThrow []).1) ∧
    (0 : Nat) = 0 :=
  ⟨((c7_guimain_codes envParseFail [] "x").1 rfl).1,
   (c7_guimain_codes envThrow [] "boom").2.1 rfl rfl,
   (c7_guimain_codes (envOk tipC []) normalSched "x").2.2 rfl rfl 0 (by decide)⟩

/-- C8: `m_allow_close` starts out false after construction, and after
any run it is true exactly when `doClose` has executed; a close event is
accepted only if `doClose` ran before it, and a close event processed in
any reachable state appends an accept exactly when `doClose` has
previously run (else an ignore). -/
theorem c8_allow_close_invariant (env : Env) (sched : List SchedStep) :
    (GuiController.construct env initialSys).allow_close = false ∧
    ((run env (GuiController.construct env initialSys) sched).allow_close = true ↔
      Action.processDoClose ∈
        (run env (GuiController.construct env initialSys) sched).trace) ∧
    PrecIn Action.processDoClose Action.closeAccepted
      (run env (GuiController.construct env initialSys) sched).trace ∧
    (BitcoinGUI.closeEvent (run env (GuiController.construct env initialSys) sched)).trace =
      (run env (GuiController.construct env initialSys) sched).trace ++
        [Action.emit Sig.quitRequested,
         if Action.processDoClose ∈
             (run env (GuiController.construct env initialSys) sched).trace
         then Action.closeAccepted else Action.closeIgnored] := by
  have hi := inv_run env sched _ (inv_construct env)
  refine ⟨?_, hi.allowClose_iff, hi.precDoCloseAccept, ?_⟩
  · cases hcc : env.configError <;> simp [GuiController.construct, initialSys, hcc]
  · cases hac : (run env (GuiController.construct env initialSys) sched).allow_close with
    | true =>
        rw [if_pos (hi.allowClose_iff.mp hac)]
        simp [BitcoinGUI.closeEvent, hac]
    | false =>
        rw [if_neg (fun hm => by rw [hi.allowClose_iff.mpr hm] at hac; cases hac)]
        simp [BitcoinGUI.closeEvent, hac]

/-- C9: when configuration parsing fails, `GuiController` construction
does not stop early: it performs exactly the same construction steps as
the success case after logging the failure and requesting exit(1) —
logging is initialized, the window and the worker are constructed, the
thread is started, and `initNode` is emitted, leaving the same queued
`baseInitNode` event. -/
theorem c9_ctor_continues (env : Env) (msg : String) :
    GuiController.construct { env with configError := some msg } initialSys =
      { GuiController.construct { env with configError := none } initialSys with
          trace := Action.logConfigError msg :: Action.exitCall 1 ::
            (GuiController.construct { env with configError := none } initialSys).trace } ∧
    Action.initLogging ∈
      (GuiController.construct { env with configError := some msg } initialSys).trace ∧
    Action.constructWindow ∈
      (GuiController.construct { env with configError := some msg } initialSys).trace ∧
    Action.constructWorker ∈
      (GuiController.construct { env with configError := some msg } initialSys).trace ∧
    Action.startThread ∈
      (GuiController.construct { env with configError := some msg } initialSys).trace ∧
    Action.emit Sig.initNode ∈
      (GuiController.construct { env with configError := some msg } initialSys).trace ∧
    (GuiController.construct { env with configError := some msg } initialSys).workerQ =
      [WorkerEv.baseInitNode] := by
  refine ⟨rfl, ?_, ?_, ?_, ?_, ?_, rfl⟩ <;>
    simp [GuiController.construct, initialSys]

/-- C10: `InitExecutor::initializeResult` is connected twice to
`NodeWorker::initializeResult` (controller.h lines 185-186), so each
result emission enqueues the handler twice; consequently a completed
full-initialization attempt invokes the handler twice — logging the tip
header height twice and, on failure, requesting exit(1) twice, or, on
success, executing the window show twice. -/
theorem c10_double_delivery (env : Env) (s : Sys) :
    slotsOf Sig.execInitializeResult =
      [Slot.workerInitializeResult, Slot.workerInitializeResult] ∧
    (InitExecutor.step env s ExecTask.initReq).workerQ =
      s.workerQ ++ [WorkerEv.initializeResult env.fullInitOk env.tipInfo,
                    WorkerEv.initializeResult env.fullInitOk env.tipInfo] ∧
    (run envFullFail (GuiController.construct envFullFail initialSys)
        failFullSched).trace.count (Action.logHeaderHeight 0) = 2 ∧
    (run envFullFail (GuiController.construct envFullFail initialSys)
        failFullSched).trace.count (Action.exitCall 1) = 2 ∧
    (run (envOk tipC []) (GuiController.construct (envOk tipC []) initialSys)
        (failFullSched ++ [SchedStep.gui, SchedStep.gui])).trace.count
      Action.showWindow = 2 := by
  exact ⟨by decide, rfl, by decide, by decide, by decide⟩

end Minta
